import Mathlib

/-!
Shallow embedding of the Tableau Gemini dashboard assistant backend
(`web_api.py`), centred on the `/chat` endpoint: the context builder that
turns a Tableau worksheet payload into a prompt context (pandas
`DataFrame` construction, per-column numeric coercion with
`errors='ignore'`, CSV serialization), the prompt assembly, and the
normalization of the external model call's result.

Modelling scope: cell values are null, arbitrary-precision integers, or
strings (floating-point cells are outside the model); numeric parsing of
strings is modelled for optionally signed decimal integer literals (the
pandas parser additionally accepts decimal/exponent forms); Python
`str.strip` is modelled by the list-based `pyStrip`; Python `repr` of a list of
strings is modelled without escaping of quotes or control characters
inside the names.
-/

namespace TableauGemini

/-- Cell value universe for the tabular payload: null, integer, or string. -/
inductive Val where
  | vnull : Val
  | vint : Int → Val
  | vstr : String → Val
deriving DecidableEq

/-- Model of the `tableau` dict of a request: the three recognized keys,
each possibly absent, plus a flag recording whether any unrecognized key
is present (which affects only the dict's truthiness). -/
structure TableauInfo where
  sheetName : Option String
  columns : Option (List String)
  rows : Option (List (List Val))
  extraKeys : Bool
deriving DecidableEq

/-- Model of `ChatRequest` (pydantic): `message` and optional `tableau`. -/
structure ChatRequest where
  message : String
  tableau : Option TableauInfo

/-- Model of `ChatResponse` (pydantic). -/
structure ChatResponse where
  response : String
deriving DecidableEq

/-- Model of a raised `HTTPException`: status code and detail string. -/
structure HTTPError where
  status : Nat
  detail : String
deriving DecidableEq

/-- Outcome of `gemini_model.generate_content(prompt)`: either the call
raises (carrying the repr of the exception), or it returns a response
object whose `text` attribute is absent (`none`), present but `None`
(`some none`), or a string (`some (some s)`). -/
inductive ModelResult where
  | success : Option (Option String) → ModelResult
  | failure : String → ModelResult

/-- Truthiness of the `tableau_info` dict after `request.tableau or {}`:
a Python dict is truthy iff it has at least one key. -/
def dictTruthy (t : TableauInfo) : Bool :=
  t.sheetName.isSome || t.columns.isSome || t.rows.isSome || t.extraKeys

/-- The fixed fallback context of line 81 of `web_api.py`. -/
def noDataContext : String :=
  "No Tableau data was provided for context. Answer the question generally."

/-- The fixed fallback answer of line 137 of `web_api.py`. -/
def fallbackAnswer : String :=
  "I couldn't generate a response. The model may have blocked the content or the prompt was too vague. Please try rephrasing your question."

/-- Model of Python `repr` on a list of strings (used by the f-string
`"Column names: {columns}."`); quoting of names containing quote or
control characters is not modelled. -/
def pyReprStrList (cols : List String) : String :=
  "[" ++ String.intercalate (", ") (cols.map (fun c => "'" ++ c ++ "'")) ++ "]"

/-- Lines 103-113 of `web_api.py`: the successful context template. -/
def contextTemplate (sheet : String) (cols : List String)
    (rowCount colCount : Nat) (csv : String) : String :=
  "The user is viewing a Tableau worksheet named '" ++ sheet ++ "'.\n" ++
  "It contains " ++ toString rowCount ++ " rows and " ++ toString colCount ++ " columns.\n" ++
  "Column names: " ++ pyReprStrList cols ++ ".\n" ++
  "The **full raw data** extracted from the current worksheet is provided below in CSV format. " ++
  "Use this data to perform detailed analysis, comparisons, and calculations to answer the user's question.\n" ++
  "Ensure your analysis is precise and based strictly on the provided data.\n\n" ++
  "--- RAW DATA START ---\n" ++
  csv ++ "\n" ++
  "--- RAW DATA END ---\n"

/-- Lines 117-120 of `web_api.py`: the degraded context on a processing
error.  The second source literal lacks the `f` prefix, so `{columns}`
is emitted verbatim rather than interpolated. -/
def degradedContext (e : String) : String :=
  "Tableau data was provided but could not be processed into CSV: " ++ e ++ ". " ++
  "Answer the question generally based on the column names: {columns}."

/-- Lines 123-130 of `web_api.py`: the final prompt. -/
def mkPrompt (userMessage tableauContext : String) : String :=
  "You are an expert data analyst AI assistant embedded in a Tableau dashboard. " ++
  "You have received the **raw data** from the user's current worksheet in CSV format. " ++
  "**Perform the necessary calculations and analysis based on the provided data context.** " ++
  "Answer the user's question clearly, precisely, and maintain a professional, analytic tone.\n\n" ++
  "User question:\n" ++ userMessage ++ "\n\n" ++
  "Tableau data context:\n" ++ tableauContext

/-- Digit-sequence parser: `some` of the value iff the list is a nonempty
sequence of decimal digits. -/
def parseDigits (ds : List Char) : Option Nat :=
  if ds.isEmpty then none
  else if ds.all Char.isDigit then
    some (ds.foldl (fun a c => 10 * a + (c.toNat - 48)) 0)
  else none

/-- Model of numeric parsing of a character list by `pd.to_numeric`,
restricted to optionally signed decimal integer literals. -/
def parseIntList : List Char → Option Int
  | [] => none
  | c :: ds =>
    if c = '-' then
      match parseDigits ds with
      | some n => some (-(n : Int))
      | none => none
    else if c = '+' then
      match parseDigits ds with
      | some n => some ((n : Int))
      | none => none
    else
      match parseDigits (c :: ds) with
      | some n => some ((n : Int))
      | none => none

/-- Model of numeric parsing of a string by `pd.to_numeric`. -/
def parseIntStr (s : String) : Option Int :=
  parseIntList s.data

/-- Numeric view of a cell under `pd.to_numeric`: `some none` for null
(kept as NaN), `some (some n)` for a numeric value, `none` when the cell
fails numeric parsing. -/
def cellNum : Val → Option (Option Int)
  | Val.vnull => some none
  | Val.vint n => some (some n)
  | Val.vstr s => (parseIntStr s).map (fun n => some n)

/-- Serialized text of a cell of a column that was NOT coerced
(`to_csv` on the untouched object column): null renders as the empty
string, integers as their decimal text, strings verbatim. -/
def rawText : Val → String
  | Val.vnull => ""
  | Val.vint n => toString n
  | Val.vstr s => s

/-- Serialized text of a cell of a column that to_numeric coerced:
with a null in the column the dtype is float (ints print with a
trailing `.0`, nulls print empty); without nulls the dtype is integer
and values print as plain decimal text. -/
def coercedText (hasNull : Bool) (v : Val) : String :=
  match cellNum v with
  | some (some n) => if hasNull then toString n ++ (".0") else toString n
  | _ => ""

/-- Serialized text of a cell given its column's coercion flags. -/
def cellText (coerces hasNull : Bool) (v : Val) : String :=
  if coerces then coercedText hasNull v else rawText v

/-- Column `j` of the materialized grid. -/
def columnOf (grid : List (List Val)) (j : Nat) : List Val :=
  grid.map (fun r => r.getD j Val.vnull)

/-- Whether `pd.to_numeric(column, errors='ignore')` succeeds: every
value (null included) must have a numeric view; otherwise the column is
left untouched. -/
def colCoerces (col : List Val) : Bool :=
  col.all (fun v => (cellNum v).isSome)

/-- Whether the column contains a null (NaN after coercion), forcing a
float dtype. -/
def colHasNull (col : List Val) : Bool :=
  col.any (fun v => v = Val.vnull)

/-- Serialized texts of one row of the grid, one per column. -/
def rowTexts (cols : List String) (grid : List (List Val)) (r : List Val) :
    List String :=
  (List.range cols.length).map (fun j =>
    cellText (colCoerces (columnOf grid j)) (colHasNull (columnOf grid j))
      (r.getD j Val.vnull))

/-- Serialized texts of the whole grid. -/
def textGrid (cols : List String) (grid : List (List Val)) :
    List (List String) :=
  grid.map (rowTexts cols grid)

/-- Whether a CSV field must be quoted (QUOTE_MINIMAL): it contains the
delimiter, the quote character, or a line break. -/
def fieldNeedsQuote (f : List Char) : Bool :=
  f.any (fun c => c = ',' || c = '"' || c = '\n' || c = '\r')

/-- Double every quote character of a field body. -/
def escField : List Char → List Char
  | [] => []
  | c :: cs => if c = '"' then '"' :: '"' :: escField cs else c :: escField cs

/-- Rendered CSV field: quoted with doubled inner quotes when needed. -/
def fieldChars (f : List Char) : List Char :=
  if fieldNeedsQuote f then '"' :: (escField f ++ ['"']) else f

/-- Rendered CSV fields of one record, comma-separated. -/
def renderFields : List (List Char) → List Char
  | [] => []
  | [f] => fieldChars f
  | f :: fs => fieldChars f ++ ',' :: renderFields fs

/-- Rendered CSV record: fields then a line feed. -/
def renderLine (fs : List (List Char)) : List Char :=
  renderFields fs ++ ['\n']

/-- Rendered CSV text of a grid of fields. -/
def renderGrid : List (List (List Char)) → List Char
  | [] => []
  | r :: rs => renderLine r ++ renderGrid rs

/-- Model of `df.to_csv(index=False)` on the coerced frame: header row of
column names then one line per row. -/
def dataCsv (cols : List String) (grid : List (List Val)) : String :=
  String.mk (renderGrid
    (((cols :: textGrid cols grid)).map (List.map String.data)))

/-- Maximum row width of a nonempty row list (pandas pads every row of a
list-of-lists input to this width). -/
def maxWidth : List (List Val) → Nat
  | [] => 0
  | r :: rs => max r.length (maxWidth rs)

/-- Pad a row with nulls (NaN) up to width `k`. -/
def padRow (k : Nat) (r : List Val) : List Val :=
  r ++ List.replicate (k - r.length) Val.vnull

/-- Model of `pd.DataFrame(rows, columns=columns)` on a list-of-lists:
an empty row list yields an empty frame with the given columns; otherwise
rows are padded with nulls to the maximum width, which must equal the
number of column labels or the constructor raises (AssertionError with
the quoted message). -/
def mkDataFrame (rows : List (List Val)) (cols : List String) :
    Except String (List (List Val)) :=
  match rows with
  | [] => Except.ok []
  | _ :: _ =>
    if cols.length = maxWidth rows then
      Except.ok (rows.map (padRow (maxWidth rows)))
    else
      Except.error (toString cols.length ++
        " columns passed, passed data had " ++ toString (maxWidth rows) ++
        " columns")

/-- Line 84 of `web_api.py`. -/
def payloadSheet (t : TableauInfo) : String :=
  t.sheetName.getD ("Unknown worksheet")

/-- Line 85 of `web_api.py`. -/
def payloadCols (t : TableauInfo) : List String :=
  t.columns.getD []

/-- Line 86 of `web_api.py`. -/
def payloadRows (t : TableauInfo) : List (List Val) :=
  t.rows.getD []

/-- Lines 84-120 of `web_api.py`: context built from a truthy tableau
dict; the inner try/except catches any processing error and substitutes
the degraded context. -/
def tableauContext (t : TableauInfo) : String :=
  match mkDataFrame (payloadRows t) (payloadCols t) with
  | Except.ok grid =>
    contextTemplate (payloadSheet t) (payloadCols t) grid.length
      (payloadCols t).length (dataCsv (payloadCols t) grid)
  | Except.error e => degradedContext e

/-- Lines 79-120 of `web_api.py`: the full context builder, with the
fixed no-data fallback for an absent or empty (falsy) tableau dict. -/
def buildContext : Option TableauInfo → String
  | none => noDataContext
  | some t => if dictTruthy t then tableauContext t else noDataContext

/-- Line 134 of `web_api.py`: `getattr(response, "text", "") or ""`. -/
def getattrText : Option (Option String) → String
  | none => ""
  | some none => ""
  | some (some s) => s

/-- Model of Python `str.strip()` (whitespace modelled by
`Char.isWhitespace`): drop leading and trailing whitespace. -/
def pyStrip (s : String) : String :=
  String.mk
    (((s.data.dropWhile Char.isWhitespace).reverse.dropWhile
      Char.isWhitespace).reverse)

/-- Lines 75-143 of `web_api.py`: the `/chat` handler.  Returns the HTTP
outcome (a 500 `HTTPError` or a `ChatResponse`) together with the list of
lines printed to the log.  The only exception source reaching the outer
handler is the model call; context-building errors are already absorbed
by `buildContext`. -/
def chat (model : String → ModelResult) (req : ChatRequest) :
    Except HTTPError ChatResponse × List String :=
  match model (mkPrompt req.message (buildContext req.tableau)) with
  | ModelResult.failure e =>
    (Except.error { status := 500, detail := "Internal Server Error: " ++ e },
     ["GEMINI/BACKEND ERROR: " ++ e])
  | ModelResult.success t =>
    (Except.ok { response :=
        if pyStrip (getattrText t) = ("") then fallbackAnswer else getattrText t },
     [])

/-- Reader for an unquoted CSV field: the characters up to the next
delimiter or line feed, together with the unconsumed remainder. -/
def takeUnquoted : List Char → List Char × List Char
  | [] => ([], [])
  | c :: cs =>
    if c = ',' ∨ c = '\n' then ([], c :: cs)
    else
      let p := takeUnquoted cs
      (c :: p.1, p.2)

/-- Reader for the body of a quoted CSV field (positioned after the
opening quote): doubled quotes decode to one quote, a single quote closes
the field; fails on an unterminated field. -/
def parseQuoted : List Char → Option (List Char × List Char)
  | [] => none
  | c :: cs =>
    if c = '"' then
      match cs with
      | [] => some ([], [])
      | c2 :: cs2 =>
        if c2 = '"' then (parseQuoted cs2).map (fun p => ('"' :: p.1, p.2))
        else some ([], c2 :: cs2)
    else (parseQuoted cs).map (fun p => (c :: p.1, p.2))

/-- Reader for one CSV field: quoted when it starts with a quote,
unquoted otherwise. -/
def parseField (l : List Char) : Option (List Char × List Char) :=
  match l with
  | [] => some ([], [])
  | c :: cs => if c = '"' then parseQuoted cs else some (takeUnquoted (c :: cs))

/-- Reader for one CSV record: comma-separated fields closed by a line
feed.  The fuel bounds the number of fields. -/
def parseRecordAux : Nat → List Char → Option (List (List Char) × List Char)
  | 0, _ => none
  | fuel + 1, l =>
    match parseField l with
    | none => none
    | some (f, rest) =>
      match rest with
      | [] => none
      | c :: r =>
        if c = ',' then
          match parseRecordAux fuel r with
          | some (fs, r2) => some (f :: fs, r2)
          | none => none
        else if c = '\n' then some ([f], r)
        else none

/-- Reader for a sequence of CSV records up to the end of input.  The
fuel bounds the number of records. -/
def parseCsvAux : Nat → List Char → Option (List (List (List Char)))
  | _, [] => some []
  | 0, _ :: _ => none
  | fuel + 1, c :: cs =>
    match parseRecordAux (c :: cs).length (c :: cs) with
    | some (r, rest) =>
      match parseCsvAux fuel rest with
      | some rs => some (r :: rs)
      | none => none
    | none => none

/-- CSV reader inverting the serialization scheme of `dataCsv`: recovers
the grid of field texts from the delimited block. -/
def parseCsv (s : String) : Option (List (List String)) :=
  (parseCsvAux s.data.length s.data).map
    (fun g => g.map (fun r => r.map String.mk))

/-! ## Helper lemmas -/

theorem fallbackAnswer_ne_empty : fallbackAnswer ≠ ("") := by decide

theorem pyStrip_empty : pyStrip ("") = ("") := rfl

theorem normalized_answer_ne_empty (txt : Option (Option String)) :
    (if pyStrip (getattrText txt) = ("") then fallbackAnswer
     else getattrText txt) ≠ ("") := by
  split
  · exact fallbackAnswer_ne_empty
  · next hcond =>
      intro hc
      exact hcond (by rw [hc]; rfl)

theorem chat_success_eq (model : String → ModelResult) (req : ChatRequest)
    (txt : Option (Option String))
    (h : model (mkPrompt req.message (buildContext req.tableau)) =
         ModelResult.success txt) :
    chat model req =
      (Except.ok ⟨if pyStrip (getattrText txt) = ("") then fallbackAnswer
        else getattrText txt⟩, []) := by
  simp only [chat, h]

theorem maxWidth_uniform (m : Nat) :
    ∀ rows : List (List Val), rows ≠ [] → (∀ r ∈ rows, r.length = m) →
      maxWidth rows = m := by
  intro rows
  induction rows with
  | nil => intro h; exact absurd rfl h
  | cons r rs ih =>
    intro _ hall
    have hr : r.length = m := hall r (List.mem_cons_self r rs)
    cases rs with
    | nil => simp [maxWidth, hr]
    | cons r2 rs2 =>
      have h2 : maxWidth (r2 :: rs2) = m :=
        ih (by simp) (fun x hx => hall x (List.mem_cons_of_mem r hx))
      rw [show maxWidth (r :: r2 :: rs2) = max r.length (maxWidth (r2 :: rs2))
        from rfl, hr, h2, max_self]

theorem padRow_eq_self (r : List Val) : padRow r.length r = r := by
  simp [padRow]

theorem map_padRow (k : Nat) :
    ∀ rows : List (List Val), (∀ r ∈ rows, r.length = k) →
      rows.map (padRow k) = rows := by
  intro rows
  induction rows with
  | nil => intro _; rfl
  | cons r rs ih =>
    intro hall
    have h1 : r.length = k := hall r (List.mem_cons_self r rs)
    rw [List.map_cons]
    congr 1
    · rw [← h1]; exact padRow_eq_self r
    · exact ih (fun x hx => hall x (List.mem_cons_of_mem r hx))

theorem mkDataFrame_of_aligned (rows : List (List Val)) (cols : List String)
    (hal : ∀ r ∈ rows, r.length = cols.length) :
    mkDataFrame rows cols = Except.ok rows := by
  cases rows with
  | nil => rfl
  | cons r rs =>
    have hmw : maxWidth (r :: rs) = cols.length :=
      maxWidth_uniform cols.length (r :: rs) (by simp) hal
    have hdf : mkDataFrame (r :: rs) cols =
        if cols.length = maxWidth (r :: rs) then
          Except.ok ((r :: rs).map (padRow (maxWidth (r :: rs))))
        else
          Except.error (toString cols.length ++
            " columns passed, passed data had " ++
            toString (maxWidth (r :: rs)) ++ " columns") := rfl
    rw [hdf, hmw, if_pos rfl, map_padRow cols.length (r :: rs) hal]

theorem buildContext_some (t : TableauInfo) (ht : dictTruthy t = true) :
    buildContext (some t) = tableauContext t := by
  rw [show buildContext (some t) =
    (if dictTruthy t = true then tableauContext t else noDataContext) from rfl,
    if_pos ht]

theorem tableauContext_of_ok (t : TableauInfo) (grid : List (List Val))
    (h : mkDataFrame (payloadRows t) (payloadCols t) = Except.ok grid) :
    tableauContext t = contextTemplate (payloadSheet t) (payloadCols t)
      grid.length (payloadCols t).length (dataCsv (payloadCols t) grid) := by
  unfold tableauContext
  rw [h]

theorem tableauContext_of_error (t : TableauInfo) (e : String)
    (h : mkDataFrame (payloadRows t) (payloadCols t) = Except.error e) :
    tableauContext t = degradedContext e := by
  unfold tableauContext
  rw [h]

theorem buildContext_of_aligned (t : TableauInfo) (ht : dictTruthy t = true)
    (hal : ∀ r ∈ payloadRows t, r.length = (payloadCols t).length) :
    buildContext (some t) =
      contextTemplate (payloadSheet t) (payloadCols t) (payloadRows t).length
        (payloadCols t).length (dataCsv (payloadCols t) (payloadRows t)) := by
  rw [buildContext_some t ht,
    tableauContext_of_ok t (payloadRows t)
      (mkDataFrame_of_aligned (payloadRows t) (payloadCols t) hal)]

theorem rowTexts_getD (cols : List String) (grid : List (List Val))
    (r : List Val) (j : Nat) (hj : j < cols.length) :
    (rowTexts cols grid r).getD j ("") =
      cellText (colCoerces (columnOf grid j)) (colHasNull (columnOf grid j))
        (r.getD j Val.vnull) := by
  have hj2 : j < ((List.range cols.length).map (fun j =>
      cellText (colCoerces (columnOf grid j)) (colHasNull (columnOf grid j))
        (r.getD j Val.vnull))).length := by
    simpa using hj
  unfold rowTexts
  rw [List.getD_eq_getElem?_getD, List.getElem?_eq_getElem hj2,
    Option.getD_some, List.getElem_map, List.getElem_range]

theorem colCoerces_eq_false_of_fail {col : List Val} {v : Val}
    (hv : v ∈ col) (hn : cellNum v = none) : colCoerces col = false := by
  simp only [colCoerces, List.all_eq_false]
  exact ⟨v, hv, by simp [hn]⟩

theorem context_of_keyed (t : TableauInfo) (cols : List String)
    (rows : List (List Val)) (hc : t.columns = some cols)
    (hr : t.rows = some rows)
    (hal : ∀ r ∈ rows, r.length = cols.length) :
    buildContext (some t) =
      contextTemplate (payloadSheet t) cols rows.length cols.length
        (dataCsv cols rows) := by
  have hc2 : payloadCols t = cols := by rw [payloadCols, hc]; rfl
  have hr2 : payloadRows t = rows := by rw [payloadRows, hr]; rfl
  have ht : dictTruthy t = true := by simp [dictTruthy, hc]
  have h := buildContext_of_aligned t ht (by rw [hc2, hr2]; exact hal)
  rwa [hc2, hr2] at h

/-! ## Claims -/

/-- C5: whenever the external model call raises, `chat` never returns a
`ChatResponse`: it produces an HTTP 500 error whose detail includes the
underlying cause, and logs the failure. -/
theorem c5_model_failure_maps_to_500 (model : String → ModelResult)
    (req : ChatRequest) (e : String)
    (h : model (mkPrompt req.message (buildContext req.tableau)) =
         ModelResult.failure e) :
    chat model req =
      (Except.error ⟨500, "Internal Server Error: " ++ e⟩,
       ["GEMINI/BACKEND ERROR: " ++ e]) := by
  simp only [chat, h]

theorem c5_witness :
    chat (fun _ => ModelResult.failure ("boom")) { message := "hi", tableau := none } =
      (Except.error ⟨500, "Internal Server Error: " ++ ("boom")⟩,
       ["GEMINI/BACKEND ERROR: " ++ ("boom")]) :=
  c5_model_failure_maps_to_500 (fun _ => ModelResult.failure ("boom"))
    { message := "hi", tableau := none } ("boom") rfl

/-- C6: whenever the model call succeeds but its text is absent, empty or
whitespace-only, `chat` returns the fixed non-empty fallback answer. -/
theorem c6_blank_output_fallback (model : String → ModelResult)
    (req : ChatRequest) (txt : Option (Option String))
    (hm : model (mkPrompt req.message (buildContext req.tableau)) =
          ModelResult.success txt)
    (hb : pyStrip (getattrText txt) = ("")) :
    chat model req = (Except.ok ⟨fallbackAnswer⟩, []) ∧
      fallbackAnswer ≠ ("") := by
  refine ⟨?_, fallbackAnswer_ne_empty⟩
  rw [chat_success_eq model req txt hm, if_pos hb]

theorem c6_witness :
    chat (fun _ => ModelResult.success (some (some ("  "))))
        { message := "hi", tableau := none } =
      (Except.ok ⟨fallbackAnswer⟩, []) ∧
      fallbackAnswer ≠ ("") :=
  c6_blank_output_fallback (fun _ => ModelResult.success (some (some ("  "))))
    { message := "hi", tableau := none } (some (some ("  "))) rfl (by decide)

/-- C10: a model response object with no `text` attribute, or whose
`text` is `None`, is treated exactly like empty output: `chat` returns
the fixed fallback answer and no error. -/
theorem c10_missing_text_attribute_fallback (model : String → ModelResult)
    (req : ChatRequest) (txt : Option (Option String))
    (hm : model (mkPrompt req.message (buildContext req.tableau)) =
          ModelResult.success txt)
    (ha : txt = none ∨ txt = some none) :
    chat model req = (Except.ok ⟨fallbackAnswer⟩, []) := by
  have hg : getattrText txt = ("") := by
    rcases ha with h | h <;> subst h <;> rfl
  rw [chat_success_eq model req txt hm, hg, if_pos pyStrip_empty]

theorem c10_witness :
    chat (fun _ => ModelResult.success none) { message := "hi", tableau := none } =
      (Except.ok ⟨fallbackAnswer⟩, []) :=
  c10_missing_text_attribute_fallback (fun _ => ModelResult.success none)
    { message := "hi", tableau := none } none rfl (Or.inl rfl)

/-- C1 counterexample: a payload whose `columns` and `rows` keys are
present but empty has no columns and no rows, yet — being a truthy
dict — it does NOT render the fixed no-data string (the code renders a
0-row, 0-column context instead). -/
theorem c1_counterexample :
    buildContext (some ⟨none, some [], some [], false⟩) ≠ noDataContext := by
  decide

/-- C1 (amended): only an absent payload or an empty dict (no keys at
all) renders the fixed no-data context; `chat` still returns a non-empty
response when the model call succeeds. -/
theorem c1_amended (model : String → ModelResult) (msg : String)
    (tab : Option TableauInfo) (txt : Option (Option String))
    (h : tab = none ∨ ∃ t, tab = some t ∧ dictTruthy t = false) :
    buildContext tab = noDataContext ∧
    (model (mkPrompt msg noDataContext) = ModelResult.success txt →
      ∃ r, (chat model { message := msg, tableau := tab }).1 = Except.ok r ∧
        r.response ≠ ("")) := by
  have hb : buildContext tab = noDataContext := by
    rcases h with h | ⟨t, ht, hf⟩
    · subst h; rfl
    · subst ht; simp [buildContext, hf]
  refine ⟨hb, fun hm => ?_⟩
  have hm' : model (mkPrompt msg (buildContext tab)) = ModelResult.success txt := by
    rw [hb]; exact hm
  refine ⟨_, ?_, normalized_answer_ne_empty txt⟩
  rw [chat_success_eq model { message := msg, tableau := tab } txt hm']
  rfl

theorem c1_witness :
    buildContext none = noDataContext ∧
    ((fun _ => ModelResult.success (some (some ("Hi"))))
        (mkPrompt ("Hello") noDataContext) =
       ModelResult.success (some (some ("Hi"))) →
      ∃ r, (chat (fun _ => ModelResult.success (some (some ("Hi"))))
          { message := ("Hello"), tableau := none }).1 = Except.ok r ∧
        r.response ≠ ("")) :=
  c1_amended (fun _ => ModelResult.success (some (some ("Hi")))) ("Hello")
    none (some (some ("Hi"))) (Or.inl rfl)

set_option maxRecDepth 8192 in
/-- C7: when processing the tabular payload fails (here: a row longer
than the column list), the context builder substitutes the degraded
context — but, the second source literal lacking its `f` prefix, that
context carries the verbatim placeholder text instead of the raw column
names the spec requires. -/
theorem c7_degraded_context_literal_placeholder :
    buildContext (some ⟨some ("Sales"), some ["a", "b"],
      some [[Val.vstr ("x"), Val.vstr ("y"), Val.vstr ("z")]], false⟩) =
    "Tableau data was provided but could not be processed into CSV: 2 columns passed, passed data had 3 columns. Answer the question generally based on the column names: {columns}." := by
  decide


/-- C2: for every payload carrying columns and rows keys, with each row
exactly as long as the column list, the rendered context is the full
template reporting exactly the number of rows and of columns, stating the
column name list, and wrapping the serialized data between the RAW DATA
markers. -/
theorem c2_shape_reported (t : TableauInfo) (cols : List String)
    (rows : List (List Val)) (hc : t.columns = some cols)
    (hr : t.rows = some rows)
    (hal : ∀ r ∈ rows, r.length = cols.length) :
    buildContext (some t) =
      contextTemplate (payloadSheet t) cols rows.length cols.length
        (dataCsv cols rows) :=
  context_of_keyed t cols rows hc hr hal

theorem c2_witness :
    buildContext (some ⟨some ("Sales"), some ["Region", "Revenue"],
      some [[Val.vstr ("East"), Val.vint 100],
        [Val.vstr ("West"), Val.vstr ("N/A")]], false⟩) =
      contextTemplate
        (payloadSheet ⟨some ("Sales"), some ["Region", "Revenue"],
          some [[Val.vstr ("East"), Val.vint 100],
            [Val.vstr ("West"), Val.vstr ("N/A")]], false⟩)
        ["Region", "Revenue"] 2 2
        (dataCsv ["Region", "Revenue"]
          [[Val.vstr ("East"), Val.vint 100],
            [Val.vstr ("West"), Val.vstr ("N/A")]]) :=
  c2_shape_reported _ ["Region", "Revenue"]
    [[Val.vstr ("East"), Val.vint 100], [Val.vstr ("West"), Val.vstr ("N/A")]]
    rfl rfl (by decide)

/-- C3: if some value of column `j` fails numeric parsing, the whole
column is left untouched — every cell of that column serializes to its
raw received text — and the pipeline still renders the full context
(neither the column, nor the row, nor the pipeline is aborted). -/
theorem c3_no_partial_coercion (t : TableauInfo) (cols : List String)
    (rows : List (List Val)) (j : Nat) (v : Val)
    (hc : t.columns = some cols) (hr : t.rows = some rows)
    (hal : ∀ r ∈ rows, r.length = cols.length)
    (hj : j < cols.length)
    (hv : v ∈ columnOf rows j) (hfail : cellNum v = none) :
    buildContext (some t) =
      contextTemplate (payloadSheet t) cols rows.length cols.length
        (dataCsv cols rows) ∧
    ∀ r ∈ rows, (rowTexts cols rows r).getD j ("") =
      rawText (r.getD j Val.vnull) := by
  refine ⟨context_of_keyed t cols rows hc hr hal, fun r _ => ?_⟩
  rw [rowTexts_getD cols rows r j hj,
    colCoerces_eq_false_of_fail hv hfail]
  rfl

theorem c3_witness :
    buildContext (some ⟨some ("Sales"), some ["Region", "Revenue"],
      some [[Val.vstr ("East"), Val.vint 100],
        [Val.vstr ("West"), Val.vstr ("N/A")]], false⟩) =
      contextTemplate
        (payloadSheet ⟨some ("Sales"), some ["Region", "Revenue"],
          some [[Val.vstr ("East"), Val.vint 100],
            [Val.vstr ("West"), Val.vstr ("N/A")]], false⟩)
        ["Region", "Revenue"] 2 2
        (dataCsv ["Region", "Revenue"]
          [[Val.vstr ("East"), Val.vint 100],
            [Val.vstr ("West"), Val.vstr ("N/A")]]) ∧
    ∀ r ∈ [[Val.vstr ("East"), Val.vint 100],
        [Val.vstr ("West"), Val.vstr ("N/A")]],
      (rowTexts ["Region", "Revenue"]
        [[Val.vstr ("East"), Val.vint 100],
          [Val.vstr ("West"), Val.vstr ("N/A")]] r).getD 1 ("") =
      rawText (r.getD 1 Val.vnull) :=
  c3_no_partial_coercion _ ["Region", "Revenue"]
    [[Val.vstr ("East"), Val.vint 100], [Val.vstr ("West"), Val.vstr ("N/A")]]
    1 (Val.vstr ("N/A")) rfl rfl (by decide) (by decide) (by decide) (by decide)

/-- C4: if every value of column `j` (nulls included) has a numeric
reading, the column is coerced and each numeric cell serializes to pure
numeric text: the plain decimal integer when the column has no nulls, and
the float rendering (mandated by the NaN cells) otherwise; the full
context is still rendered. -/
theorem c4_coerced_column_numeric_text (t : TableauInfo) (cols : List String)
    (rows : List (List Val)) (j : Nat)
    (hc : t.columns = some cols) (hr : t.rows = some rows)
    (hal : ∀ r ∈ rows, r.length = cols.length)
    (hj : j < cols.length)
    (hcoerce : colCoerces (columnOf rows j) = true) :
    buildContext (some t) =
      contextTemplate (payloadSheet t) cols rows.length cols.length
        (dataCsv cols rows) ∧
    ∀ r ∈ rows, ∀ n : Int, cellNum (r.getD j Val.vnull) = some (some n) →
      (rowTexts cols rows r).getD j ("") =
        (if colHasNull (columnOf rows j) then toString n ++ (".0")
         else toString n) := by
  refine ⟨context_of_keyed t cols rows hc hr hal, fun r _ n hn => ?_⟩
  rw [rowTexts_getD cols rows r j hj, hcoerce]
  rw [show cellText true (colHasNull (columnOf rows j)) (r.getD j Val.vnull) =
    coercedText (colHasNull (columnOf rows j)) (r.getD j Val.vnull) from rfl]
  unfold coercedText
  rw [hn]

theorem c4_witness :
    buildContext (some ⟨none, some ["a"],
      some [[Val.vint 1], [Val.vstr ("2")]], false⟩) =
      contextTemplate
        (payloadSheet ⟨none, some ["a"],
          some [[Val.vint 1], [Val.vstr ("2")]], false⟩)
        ["a"] 2 1 (dataCsv ["a"] [[Val.vint 1], [Val.vstr ("2")]]) ∧
    ∀ r ∈ [[Val.vint 1], [Val.vstr ("2")]], ∀ n : Int,
      cellNum (r.getD 0 Val.vnull) = some (some n) →
      (rowTexts ["a"] [[Val.vint 1], [Val.vstr ("2")]] r).getD 0 ("") =
        (if colHasNull (columnOf [[Val.vint 1], [Val.vstr ("2")]] 0)
         then toString n ++ (".0") else toString n) :=
  c4_coerced_column_numeric_text _ ["a"] [[Val.vint 1], [Val.vstr ("2")]] 0
    rfl rfl (by decide) (by decide) (by decide)


set_option maxRecDepth 8192 in
/-- C8 counterexample: for a payload whose single row is shorter than the
column list, the code does not treat the missing cell as null — the
DataFrame constructor raises and the degraded context is substituted, so
the serialized block with a null-padded row never appears. -/
theorem c8_counterexample :
    buildContext (some ⟨none, some ["a", "b"], some [[Val.vstr ("x")]],
      false⟩) =
      degradedContext ("2 columns passed, passed data had 1 columns") ∧
    buildContext (some ⟨none, some ["a", "b"], some [[Val.vstr ("x")]],
      false⟩) ≠
      contextTemplate ("Unknown worksheet") ["a", "b"] 1 2
        (dataCsv ["a", "b"] [[Val.vstr ("x"), Val.vnull]]) := by
  exact ⟨by decide, by decide⟩

/-- C8 (amended): rows whose length differs from the column list never
crash `chat`.  When the maximum row length differs from the column count
the builder falls back to the degraded context naming the failure; when
it equals the column count, shorter rows are padded with nulls; in either
case `chat` still returns a non-empty response when the model call
succeeds. -/
theorem c8_amended (t : TableauInfo) (cols : List String)
    (rows : List (List Val)) (model : String → ModelResult) (msg : String)
    (txt : Option (Option String))
    (hc : t.columns = some cols) (hr : t.rows = some rows)
    (hne : rows ≠ []) :
    (maxWidth rows ≠ cols.length →
      buildContext (some t) = degradedContext (toString cols.length ++
        " columns passed, passed data had " ++ toString (maxWidth rows) ++
        " columns")) ∧
    (maxWidth rows = cols.length →
      buildContext (some t) =
        contextTemplate (payloadSheet t) cols rows.length cols.length
          (dataCsv cols (rows.map (padRow cols.length)))) ∧
    (model (mkPrompt msg (buildContext (some t))) = ModelResult.success txt →
      ∃ r, (chat model ⟨msg, some t⟩).1 = Except.ok r ∧
        r.response ≠ ("")) := by
  have ht : dictTruthy t = true := by simp [dictTruthy, hc]
  have hc2 : payloadCols t = cols := by rw [payloadCols, hc]; rfl
  have hr2 : payloadRows t = rows := by rw [payloadRows, hr]; rfl
  refine ⟨fun hmm => ?_, fun hmm => ?_, fun hm => ?_⟩
  · obtain ⟨r, rs, hrr⟩ := List.exists_cons_of_ne_nil hne
    subst hrr
    have hdf : mkDataFrame (r :: rs) cols =
        Except.error (toString cols.length ++
          " columns passed, passed data had " ++
          toString (maxWidth (r :: rs)) ++ " columns") := by
      rw [show mkDataFrame (r :: rs) cols =
        (if cols.length = maxWidth (r :: rs) then
          Except.ok ((r :: rs).map (padRow (maxWidth (r :: rs))))
        else
          Except.error (toString cols.length ++
            " columns passed, passed data had " ++
            toString (maxWidth (r :: rs)) ++ " columns")) from rfl,
        if_neg (fun hh => hmm hh.symm)]
    rw [buildContext_some t ht,
      tableauContext_of_error t _ (by rw [hr2, hc2]; exact hdf)]
  · have hdf2 : mkDataFrame rows cols =
        Except.ok (rows.map (padRow cols.length)) := by
      obtain ⟨r, rs, hrr⟩ := List.exists_cons_of_ne_nil hne
      subst hrr
      rw [show mkDataFrame (r :: rs) cols =
        (if cols.length = maxWidth (r :: rs) then
          Except.ok ((r :: rs).map (padRow (maxWidth (r :: rs))))
        else
          Except.error (toString cols.length ++
            " columns passed, passed data had " ++
            toString (maxWidth (r :: rs)) ++ " columns")) from rfl,
        hmm, if_pos rfl]
    rw [buildContext_some t ht,
      tableauContext_of_ok t (rows.map (padRow cols.length))
        (by rw [hr2, hc2]; exact hdf2),
      hc2, List.length_map]
  · refine ⟨_, ?_, normalized_answer_ne_empty txt⟩
    rw [chat_success_eq model ⟨msg, some t⟩ txt hm]
    rfl

theorem c8_witness :
    (maxWidth [[Val.vstr ("x")]] ≠ (["a", "b"] : List String).length →
      buildContext (some ⟨none, some ["a", "b"], some [[Val.vstr ("x")]],
        false⟩) =
        degradedContext (toString (["a", "b"] : List String).length ++
          " columns passed, passed data had " ++
          toString (maxWidth [[Val.vstr ("x")]]) ++ " columns")) ∧
    (maxWidth [[Val.vstr ("x")]] = (["a", "b"] : List String).length →
      buildContext (some ⟨none, some ["a", "b"], some [[Val.vstr ("x")]],
        false⟩) =
        contextTemplate
          (payloadSheet ⟨none, some ["a", "b"], some [[Val.vstr ("x")]],
            false⟩)
          ["a", "b"] [[Val.vstr ("x")]].length
          (["a", "b"] : List String).length
          (dataCsv ["a", "b"]
            ([[Val.vstr ("x")]].map
              (padRow (["a", "b"] : List String).length)))) ∧
    ((fun _ => ModelResult.success (some (some ("ok"))))
        (mkPrompt ("hi") (buildContext (some ⟨none, some ["a", "b"],
          some [[Val.vstr ("x")]], false⟩))) =
       ModelResult.success (some (some ("ok"))) →
      ∃ r, (chat (fun _ => ModelResult.success (some (some ("ok"))))
          ⟨("hi"), some ⟨none, some ["a", "b"], some [[Val.vstr ("x")]],
            false⟩⟩).1 =
        Except.ok r ∧ r.response ≠ ("")) :=
  c8_amended ⟨none, some ["a", "b"], some [[Val.vstr ("x")]], false⟩
    ["a", "b"] [[Val.vstr ("x")]]
    (fun _ => ModelResult.success (some (some ("ok")))) ("hi")
    (some (some ("ok"))) rfl rfl (by decide)


theorem parseDigits_none_of_nondigit {ds : List Char} {c0 : Char}
    (h : c0 ∈ ds) (hd : c0.isDigit = false) : parseDigits ds = none := by
  have h1 : ds.isEmpty = false := by
    cases ds with
    | nil => simp at h
    | cons a as => rfl
  have h2 : ds.all Char.isDigit = false :=
    List.all_eq_false.mpr ⟨c0, h, by simp [hd]⟩
  simp [parseDigits, h1, h2]

theorem parseIntList_cons (c : Char) (ds : List Char) :
    parseIntList (c :: ds) =
      if c = '-' then
        match parseDigits ds with
        | some n => some (-(n : Int))
        | none => none
      else if c = '+' then
        match parseDigits ds with
        | some n => some ((n : Int))
        | none => none
      else
        match parseDigits (c :: ds) with
        | some n => some ((n : Int))
        | none => none := rfl

theorem parseIntList_none_of_special {l : List Char} {c0 : Char}
    (hc : c0 ∈ l) (hsp : c0 = ',' ∨ c0 = '\n') :
    parseIntList l = none := by
  have hd : c0.isDigit = false := by
    rcases hsp with h | h <;> subst h <;> rfl
  have hdash : c0 ≠ '-' := by
    rcases hsp with h | h <;> subst h <;> decide
  have hplus : c0 ≠ '+' := by
    rcases hsp with h | h <;> subst h <;> decide
  cases l with
  | nil => simp at hc
  | cons c ds =>
    rcases List.mem_cons.mp hc with hc0 | hc0
    · subst hc0
      rw [parseIntList_cons, if_neg hdash, if_neg hplus,
        parseDigits_none_of_nondigit (List.mem_cons_self c0 ds) hd]
    · rw [parseIntList_cons]
      by_cases h1 : c = '-'
      · rw [if_pos h1, parseDigits_none_of_nondigit hc0 hd]
      · by_cases h2 : c = '+'
        · rw [if_neg h1, if_pos h2, parseDigits_none_of_nondigit hc0 hd]
        · rw [if_neg h1, if_neg h2,
            parseDigits_none_of_nondigit (List.mem_cons_of_mem c hc0) hd]

theorem parseIntStr_none_of_special {s : String} {c0 : Char}
    (hc : c0 ∈ s.data) (hsp : c0 = ',' ∨ c0 = '\n') :
    parseIntStr s = none :=
  parseIntList_none_of_special hc hsp

theorem parseQuoted_cons (c : Char) (cs : List Char) :
    parseQuoted (c :: cs) =
      if c = '"' then
        match cs with
        | [] => some ([], [])
        | c2 :: cs2 =>
          if c2 = '"' then (parseQuoted cs2).map (fun p => ('"' :: p.1, p.2))
          else some ([], c2 :: cs2)
      else (parseQuoted cs).map (fun p => (c :: p.1, p.2)) := by
  rw [parseQuoted.eq_def]

theorem takeUnquoted_cons (c : Char) (cs : List Char) :
    takeUnquoted (c :: cs) =
      if c = ',' ∨ c = '\n' then ([], c :: cs)
      else (c :: (takeUnquoted cs).1, (takeUnquoted cs).2) := rfl

theorem parseField_cons (c : Char) (cs : List Char) :
    parseField (c :: cs) =
      if c = '"' then parseQuoted cs else some (takeUnquoted (c :: cs)) := rfl

theorem parseQuoted_escape (f : List Char) :
    ∀ sep : List Char, sep.head? ≠ some '"' →
      parseQuoted (escField f ++ '"' :: sep) = some (f, sep) := by
  induction f with
  | nil =>
    intro sep hsep
    cases sep with
    | nil => rfl
    | cons c cs =>
      have hc : ¬(c = '"') := fun h => hsep (by rw [h]; rfl)
      rw [show escField [] ++ '"' :: c :: cs = '"' :: c :: cs from rfl,
        parseQuoted_cons, if_pos rfl]
      show (if c = '"' then
          (parseQuoted cs).map (fun p => ('"' :: p.1, p.2))
        else some ([], c :: cs)) = some ([], c :: cs)
      rw [if_neg hc]
  | cons c f2 ih =>
    intro sep hsep
    by_cases hc : c = '"'
    · subst hc
      rw [show escField ('"' :: f2) = '"' :: '"' :: escField f2 from by
          simp [escField],
        List.cons_append, List.cons_append, parseQuoted_cons, if_pos rfl]
      show (if '"' = '"' then
          (parseQuoted (escField f2 ++ '"' :: sep)).map
            (fun p => ('"' :: p.1, p.2))
        else some ([], '"' :: (escField f2 ++ '"' :: sep))) =
        some ('"' :: f2, sep)
      rw [if_pos rfl, ih sep hsep]
      rfl
    · rw [show escField (c :: f2) = c :: escField f2 from by
          simp [escField, hc],
        List.cons_append, parseQuoted_cons, if_neg hc, ih sep hsep]
      rfl

theorem takeUnquoted_append (f : List Char)
    (hf : ∀ c ∈ f, ¬(c = ',' ∨ c = '\n')) :
    ∀ sep : List Char,
      (sep.head? = some ',' ∨ sep.head? = some '\n') →
      takeUnquoted (f ++ sep) = (f, sep) := by
  induction f with
  | nil =>
    intro sep hsep
    cases sep with
    | nil => simp at hsep
    | cons c cs =>
      have hc : c = ',' ∨ c = '\n' := by
        rcases hsep with h | h <;> simp at h <;> simp [h]
      rw [List.nil_append, takeUnquoted_cons, if_pos hc]
  | cons c f2 ih =>
    intro sep hsep
    have hc := hf c (List.mem_cons_self c f2)
    rw [List.cons_append, takeUnquoted_cons, if_neg hc,
      ih (fun x hx => hf x (List.mem_cons_of_mem c hx)) sep hsep]

theorem not_needsQuote_chars {f : List Char} (h : fieldNeedsQuote f = false) :
    ∀ c ∈ f, ¬(c = ',' ∨ c = '"' ∨ c = '\n' ∨ c = '\r') := by
  intro c hc hor
  have h2 := (List.any_eq_false.mp h) c hc
  apply h2
  rcases hor with h4 | h4 | h4 | h4 <;> subst h4 <;> rfl

theorem parseField_append (f sep : List Char)
    (hsep : sep.head? = some ',' ∨ sep.head? = some '\n') :
    parseField (fieldChars f ++ sep) = some (f, sep) := by
  by_cases hq : fieldNeedsQuote f = true
  · have hsep2 : sep.head? ≠ some '"' := by
      rcases hsep with h | h <;> rw [h] <;> decide
    rw [show fieldChars f = '"' :: (escField f ++ ['"']) from by
        simp [fieldChars, hq],
      List.cons_append, List.append_assoc, List.singleton_append,
      parseField_cons, if_pos rfl, parseQuoted_escape f sep hsep2]
  · have hq2 : fieldNeedsQuote f = false := by simpa using hq
    have hchars := not_needsQuote_chars hq2
    have hcomma : ∀ c ∈ f, ¬(c = ',' ∨ c = '\n') := fun c hcm hor =>
      hchars c hcm (by rcases hor with h | h <;> simp [h])
    rw [show fieldChars f = f from by simp [fieldChars, hq2]]
    cases f with
    | nil =>
      cases sep with
      | nil => rcases hsep with h | h <;> simp at h
      | cons c cs =>
        have hcq : ¬(c = '"') := by
          rcases hsep with h | h <;> simp at h <;> subst h <;> decide
        have hc2 : c = ',' ∨ c = '\n' := by
          rcases hsep with h | h <;> simp at h <;> simp [h]
        rw [List.nil_append, parseField_cons, if_neg hcq, takeUnquoted_cons,
          if_pos hc2]
    | cons c f2 =>
      have hcq : ¬(c = '"') := fun hh =>
        hchars c (List.mem_cons_self c f2) (by simp [hh])
      rw [List.cons_append, parseField_cons, if_neg hcq, ← List.cons_append,
        takeUnquoted_append (c :: f2) hcomma sep hsep]

theorem parseRecordAux_succ (fuel : Nat) (l : List Char) :
    parseRecordAux (fuel + 1) l =
      match parseField l with
      | none => none
      | some (f, rest) =>
        match rest with
        | [] => none
        | c :: r =>
          if c = ',' then
            match parseRecordAux fuel r with
            | some (fs, r2) => some (f :: fs, r2)
            | none => none
          else if c = '\n' then some ([f], r)
          else none := rfl

theorem parseRecordAux_render (fields : List (List Char)) :
    ∀ (fuel : Nat) (rest : List Char), fields ≠ [] → fields.length ≤ fuel →
      parseRecordAux fuel (renderFields fields ++ '\n' :: rest) =
        some (fields, rest) := by
  induction fields with
  | nil => intro _ _ h _; exact absurd rfl h
  | cons f fs ih =>
    intro fuel rest _ hfuel
    have hpos : 0 < fuel := by
      simp only [List.length_cons] at hfuel
      omega
    obtain ⟨k, rfl⟩ : ∃ k, fuel = k + 1 := ⟨fuel - 1, by omega⟩
    cases fs with
    | nil =>
      rw [show renderFields [f] = fieldChars f from rfl, parseRecordAux_succ,
        parseField_append f ('\n' :: rest) (Or.inr rfl)]
      show (if '\n' = ',' then
          match parseRecordAux k rest with
          | some (fs, r2) => some (f :: fs, r2)
          | none => none
        else if '\n' = '\n' then some ([f], rest) else none) =
        some ([f], rest)
      rw [if_neg (by decide), if_pos rfl]
    | cons f2 fs2 =>
      rw [show renderFields (f :: f2 :: fs2) =
          fieldChars f ++ ',' :: renderFields (f2 :: fs2) from rfl,
        List.append_assoc, List.cons_append, parseRecordAux_succ,
        parseField_append f
          (',' :: (renderFields (f2 :: fs2) ++ '\n' :: rest)) (Or.inl rfl)]
      have hlen : (f2 :: fs2).length ≤ k := by
        simp only [List.length_cons] at hfuel ⊢
        omega
      show (if ',' = ',' then
          match parseRecordAux k (renderFields (f2 :: fs2) ++ '\n' :: rest) with
          | some (fs3, r2) => some (f :: fs3, r2)
          | none => none
        else if ',' = '\n' then
          some ([f], renderFields (f2 :: fs2) ++ '\n' :: rest)
        else none) = some (f :: f2 :: fs2, rest)
      rw [if_pos rfl, ih k rest (by simp) hlen]

theorem parseCsvAux_nil (fuel : Nat) : parseCsvAux fuel [] = some [] := by
  cases fuel <;> rfl

theorem parseCsvAux_succ (fuel : Nat) (c : Char) (cs : List Char) :
    parseCsvAux (fuel + 1) (c :: cs) =
      match parseRecordAux (c :: cs).length (c :: cs) with
      | some (r, rest) =>
        match parseCsvAux fuel rest with
        | some rs => some (r :: rs)
        | none => none
      | none => none := rfl

theorem one_le_renderLine_length (fs : List (List Char)) :
    1 ≤ (renderLine fs).length := by
  simp [renderLine]

theorem fields_le_renderLine_length :
    ∀ fields : List (List Char), fields.length ≤ (renderLine fields).length := by
  intro fields
  induction fields with
  | nil => simp [renderLine, renderFields]
  | cons f fs ih =>
    cases fs with
    | nil =>
      rw [show renderLine [f] = fieldChars f ++ ['\n'] from rfl]
      simp
    | cons f2 fs2 =>
      rw [show renderLine (f :: f2 :: fs2) =
        (fieldChars f ++ ',' :: renderFields (f2 :: fs2)) ++ ['\n'] from rfl]
      rw [show renderLine (f2 :: fs2) =
        renderFields (f2 :: fs2) ++ ['\n'] from rfl] at ih
      simp only [List.length_append, List.length_cons, List.length_nil] at ih ⊢
      omega

theorem grid_le_renderGrid_length :
    ∀ grid : List (List (List Char)), grid.length ≤ (renderGrid grid).length := by
  intro grid
  induction grid with
  | nil => simp [renderGrid]
  | cons r rs ih =>
    rw [show renderGrid (r :: rs) = renderLine r ++ renderGrid rs from rfl]
    simp only [List.length_append, List.length_cons]
    have h1 := one_le_renderLine_length r
    omega

theorem renderLine_append_eq (r : List (List Char)) (x : List Char) :
    renderLine r ++ x = renderFields r ++ '\n' :: x := by
  rw [renderLine, List.append_assoc, List.singleton_append]

theorem parseCsvAux_render :
    ∀ (grid : List (List (List Char))) (fuel : Nat),
      (∀ row ∈ grid, row ≠ []) → grid.length ≤ fuel →
      parseCsvAux fuel (renderGrid grid) = some grid := by
  intro grid
  induction grid with
  | nil => intro fuel _ _; exact parseCsvAux_nil fuel
  | cons r rs ih =>
    intro fuel hrows hfuel
    have hpos : 0 < fuel := by
      simp only [List.length_cons] at hfuel
      omega
    obtain ⟨k, rfl⟩ : ∃ k, fuel = k + 1 := ⟨fuel - 1, by omega⟩
    have hr_ne : r ≠ [] := hrows r (List.mem_cons_self r rs)
    have hshape : renderGrid (r :: rs) =
        renderFields r ++ '\n' :: renderGrid rs := by
      rw [show renderGrid (r :: rs) = renderLine r ++ renderGrid rs from rfl,
        renderLine_append_eq]
    obtain ⟨c, cs, hcc⟩ : ∃ c cs, renderGrid (r :: rs) = c :: cs := by
      rw [hshape]
      cases hrf : renderFields r with
      | nil => exact ⟨'\n', renderGrid rs, by simp⟩
      | cons a as => exact ⟨a, as ++ '\n' :: renderGrid rs, by simp⟩
    rw [hcc, parseCsvAux_succ, ← hcc, hshape]
    have hlen2 : r.length ≤
        (renderFields r ++ '\n' :: renderGrid rs).length := by
      have h3 := fields_le_renderLine_length r
      rw [show renderLine r = renderFields r ++ ['\n'] from rfl] at h3
      simp only [List.length_append, List.length_cons, List.length_nil]
        at h3 ⊢
      omega
    rw [parseRecordAux_render r
      ((renderFields r ++ '\n' :: renderGrid rs).length)
      (renderGrid rs) hr_ne hlen2]
    show (match parseCsvAux k (renderGrid rs) with
      | some rs2 => some (r :: rs2)
      | none => none) = some (r :: rs)
    rw [ih k (fun row hrow => hrows row (List.mem_cons_of_mem r hrow))
      (by simp only [List.length_cons] at hfuel; omega)]

theorem parseCsv_render (grid : List (List (List Char)))
    (hrows : ∀ row ∈ grid, row ≠ []) :
    parseCsv (String.mk (renderGrid grid)) =
      some (grid.map (fun r => r.map String.mk)) := by
  rw [show parseCsv (String.mk (renderGrid grid)) =
    (parseCsvAux (renderGrid grid).length (renderGrid grid)).map
      (fun g => g.map (fun r => r.map String.mk)) from rfl]
  rw [parseCsvAux_render grid (renderGrid grid).length hrows
    (grid_le_renderGrid_length grid)]
  rfl

theorem map_data_mk (r : List String) :
    (r.map String.data).map String.mk = r := by
  induction r with
  | nil => rfl
  | cons s rs ih =>
    simp only [List.map_cons]
    rw [ih]

theorem rowTexts_length (cols : List String) (grid : List (List Val))
    (r : List Val) : (rowTexts cols grid r).length = cols.length := by
  simp [rowTexts]


/-- C9: the serialized delimited block round-trips: the CSV reader
recovers from `dataCsv` exactly the header of column names and the grid
of rendered cell texts, and every cell whose string value contains the
comma delimiter or a line break is rendered verbatim (its column cannot
coerce), hence is recovered exactly as received. -/
theorem c9_csv_round_trip (cols : List String) (rows : List (List Val))
    (hcols : cols ≠ []) :
    parseCsv (dataCsv cols rows) = some (cols :: textGrid cols rows) ∧
    ∀ r ∈ rows, ∀ j, j < cols.length → ∀ s : String,
      r.getD j Val.vnull = Val.vstr s →
      (∃ c0 ∈ s.data, c0 = ',' ∨ c0 = '\n') →
      (rowTexts cols rows r).getD j ("") = s := by
  constructor
  · have hrows : ∀ row ∈ (cols :: textGrid cols rows).map
        (List.map String.data), row ≠ [] := by
      intro row hrow
      rcases List.mem_map.mp hrow with ⟨x, hx, rfl⟩
      rcases List.mem_cons.mp hx with hx1 | hx2
      · subst hx1
        intro hnil
        exact hcols (List.map_eq_nil_iff.mp hnil)
      · rcases List.mem_map.mp hx2 with ⟨rr, hrr, rfl⟩
        intro hnil
        have hlen : ((rowTexts cols rows rr).map String.data).length =
            cols.length := by
          rw [List.length_map, rowTexts_length]
        rw [hnil] at hlen
        simp only [List.length_nil] at hlen
        exact hcols (List.eq_nil_of_length_eq_zero hlen.symm)
    rw [show dataCsv cols rows = String.mk (renderGrid
        (((cols :: textGrid cols rows)).map (List.map String.data)))
      from rfl]
    rw [parseCsv_render _ hrows]
    congr 1
    rw [List.map_map]
    have hpt : ∀ x ∈ cols :: textGrid cols rows,
        ((fun r => r.map String.mk) ∘ List.map String.data) x = id x :=
      fun x _ => map_data_mk x
    rw [List.map_congr_left hpt, List.map_id]
  · intro r hr j hj s hs hsp
    rcases hsp with ⟨c0, hc0, hor⟩
    have hfail : cellNum (Val.vstr s) = none := by
      rw [show cellNum (Val.vstr s) =
          (parseIntStr s).map (fun n => some n) from rfl,
        parseIntStr_none_of_special hc0 hor]
      rfl
    have hmem : Val.vstr s ∈ columnOf rows j := by
      rw [← hs]
      exact List.mem_map.mpr ⟨r, hr, rfl⟩
    rw [rowTexts_getD cols rows r j hj,
      colCoerces_eq_false_of_fail hmem hfail, hs]
    rfl

theorem c9_witness :
    parseCsv (dataCsv ["a", "b"] [[Val.vstr ("x,y"), Val.vint 1]]) =
      some (["a", "b"] ::
        textGrid ["a", "b"] [[Val.vstr ("x,y"), Val.vint 1]]) ∧
    ∀ r ∈ [[Val.vstr ("x,y"), Val.vint 1]], ∀ j,
      j < (["a", "b"] : List String).length →
      ∀ s : String, r.getD j Val.vnull = Val.vstr s →
      (∃ c0 ∈ s.data, c0 = ',' ∨ c0 = '\n') →
      (rowTexts ["a", "b"] [[Val.vstr ("x,y"), Val.vint 1]] r).getD j ("") =
        s :=
  c9_csv_round_trip ["a", "b"] [[Val.vstr ("x,y"), Val.vint 1]] (by decide)

end TableauGemini
